import Mathlib

/-!
Shallow embedding of the `eventbus` Go package (src/eventbus.go): a
process-wide, type-indexed publish/subscribe registry.  The registry is a
map from a `reflect.Type` key to an ordered slice of `(id, handler)`
entries, plus a `uint64` subscription-id counter; the four operations
`Subscribe`, `Unsubscribe`, `Publish` and `PublishAsync` are translated
statement by statement into pure state-passing functions.  Handler
invocations (resp. goroutine launches for the async path) are recorded as
an ordered trace of `(handler, value)` pairs, which is the observable
effect of dispatch.
-/

namespace eventbus

/-- Go runtime type identities.  A Go type is either a concrete (non-interface)
type or an interface type; two distinct indices stand for two distinct Go
types. -/
inductive GoType where
  | concrete (n : Nat)
  | iface (n : Nat)
deriving DecidableEq, Repr

/-- Model of a Go value as it is passed to `Publish[T]`/`PublishAsync[T]`:
`dynamic` is the value's runtime (dynamic) type as `reflect.TypeOf` reports it
when the value is boxed into an `interface{}` — `none` models a nil interface
value, whose `reflect.TypeOf` is the nil `reflect.Type`.  `payload` abstracts
the value's contents. -/
structure GoValue where
  dynamic : Option GoType
  payload : Nat
deriving DecidableEq, Repr

/-- Model of `reflect.TypeOf(event)` for a value `event` (the argument is
boxed into `interface{}`, so the result is the dynamic type, `none` for a nil
interface). -/
def typeOf (v : GoValue) : Option GoType := v.dynamic

/-- Model of `reflect.TypeOf(*new(T))` for a type parameter `T`: the zero
value of a concrete type `T` has dynamic type `T` itself, while the zero value
of an interface type is the nil interface, whose `reflect.TypeOf` is nil. -/
def typeOfZero (T : GoType) : Option GoType :=
  match T with
  | .concrete n => some (.concrete n)
  | .iface _ => none

/-- Go typing judgment for values: a value may be passed at declared type `T`
when `T` is a concrete type and the value's dynamic type is exactly `T`, or
when `T` is an interface type and the value is the nil interface or holds
some concrete dynamic type (dynamic types in Go are always concrete). -/
def valueOfType (T : GoType) (v : GoValue) : Bool :=
  match T with
  | .concrete n => v.dynamic = some (.concrete n)
  | .iface _ =>
    match v.dynamic with
    | none => true
    | some (.concrete _) => true
    | some (.iface _) => false

/-- Model of a Go handler value.  In Go a single type can have at most one
method named `OnEvent`, so a handler value implements `Handler[T]` for at
most one `T`; `handles` records that unique type, and the type assertion
`h.(Handler[T])` succeeds exactly when `handles = T`.  `tag` distinguishes
handler instances. -/
structure GoHandler where
  handles : GoType
  tag : Nat
deriving DecidableEq, Repr

/-- Model of the Go struct `handlerEntry { id uint64; handler interface{} }`. -/
structure handlerEntry where
  id : Nat
  handler : GoHandler
deriving DecidableEq, Repr

/-- Model of the Go map `map[reflect.Type][]handlerEntry` as an association
list with unique keys (keys of type `Option GoType`, since a nil
`reflect.Type` is a legal map key). -/
abbrev HandlerMap := List (Option GoType × List handlerEntry)

/-- Map indexing `m[k]` with the comma-ok form: `some` when the key is
present, `none` when absent. -/
def mapLookup (m : HandlerMap) (k : Option GoType) : Option (List handlerEntry) :=
  match m with
  | [] => none
  | (k', v) :: rest => if k' = k then some v else mapLookup rest k

/-- Map assignment `m[k] = v`: replaces the value of an existing key in
place, otherwise adds the key. -/
def mapInsert (m : HandlerMap) (k : Option GoType) (v : List handlerEntry) : HandlerMap :=
  match m with
  | [] => [(k, v)]
  | (k', v') :: rest => if k' = k then (k, v) :: rest else (k', v') :: mapInsert rest k v

/-- The package-level mutable state: the `handlers` map and the `subscriberId`
counter (a Go `uint64`, hence all arithmetic on it is modulo `2 ^ 64`). -/
structure Registry where
  handlers : HandlerMap
  subscriberId : Nat
deriving DecidableEq, Repr

/-- The state at process start: `handlers` empty, `subscriberId = 0`. -/
def initialRegistry : Registry := ⟨[], 0⟩

/-- Model of `generateHandlerId`: `atomic.AddUint64(&subscriberId, 1)` returns
the incremented value; `uint64` addition wraps modulo `2 ^ 64`. -/
def generateHandlerId (subscriberId : Nat) : Nat := (subscriberId + 1) % 2 ^ 64

/-- Model of `Subscribe[T](handler)`: generates a fresh id, computes the key
`reflect.TypeOf(*new(T))`, appends `{id, handler}` to the slice for that key
(indexing a missing key yields the empty slice, and the assignment makes the
key present), and returns the id. -/
def Subscribe (T : GoType) (handler : GoHandler) (st : Registry) : Nat × Registry :=
  let id := generateHandlerId st.subscriberId
  let eventType := typeOfZero T
  let cur := (mapLookup st.handlers eventType).getD []
  (id, ⟨mapInsert st.handlers eventType (cur ++ [⟨id, handler⟩]), id⟩)

/-- Model of the removal loop in `Unsubscribe`: scan for the first entry whose
`id` matches; on a match, `append(handler[:i], handler[i+1:]...)` removes that
entry preserving the order of the rest.  `none` means no entry matched. -/
def removeFirst (l : List handlerEntry) (subscriptionID : Nat) : Option (List handlerEntry) :=
  match l with
  | [] => none
  | h :: rest =>
    if h.id = subscriptionID then some rest
    else (removeFirst rest subscriptionID).map (fun l2 => h :: l2)

/-- Model of `Unsubscribe[T](subscriptionID)`: look up the slice for the key
`reflect.TypeOf(*new(T))`; if the key is absent return false; otherwise scan
for a matching id, removing the first match (order preserved) and returning
true, or returning false with the state untouched when no entry matches. -/
def Unsubscribe (T : GoType) (subscriptionID : Nat) (st : Registry) : Bool × Registry :=
  let eventType := typeOfZero T
  match mapLookup st.handlers eventType with
  | none => (false, st)
  | some handler =>
    match removeFirst handler subscriptionID with
    | none => (false, st)
    | some l2 => (true, ⟨mapInsert st.handlers eventType l2, st.subscriberId⟩)

/-- The two error values `Publish`/`PublishAsync` can return, as built by
`fmt.Errorf`; the `%T` verb prints the dynamic type of `event`, which is the
`Option GoType` carried here (`none` prints as the nil type). -/
inductive BusError where
  | noHandlers (t : Option GoType)
  | handlerTypeMismatch (t : Option GoType)
deriving DecidableEq, Repr

/-- Model of the fan-out loop shared by `Publish[T]` and `PublishAsync[T]`:
for each entry in order, the type assertion `h.handler.(Handler[T])` succeeds
exactly when the stored handler's unique handled type is `T`; on success the
handler invocation (resp. goroutine launch) is recorded in the trace and the
loop continues, on failure the loop stops with a `handlerTypeMismatch` error
and no further entry is reached. -/
def dispatchLoop (T : GoType) (v : GoValue) (l : List handlerEntry) :
    Option BusError × List (GoHandler × GoValue) :=
  match l with
  | [] => (none, [])
  | h :: rest =>
    if h.handler.handles = T then
      let r := dispatchLoop T v rest
      (r.1, (h.handler, v) :: r.2)
    else (some (.handlerTypeMismatch (typeOf v)), [])

/-- Result of one `Publish`/`PublishAsync` call: the returned error (`none`
models a nil error, i.e. success), the ordered trace of handler invocations
(for `PublishAsync`, of goroutine launches), and the registry state after the
call. -/
structure DispatchOut where
  err : Option BusError
  calls : List (GoHandler × GoValue)
  post : Registry
deriving DecidableEq, Repr

/-- Model of `Publish[T](event)`: compute `eventType := reflect.TypeOf(event)`,
look it up in the map; an absent key returns the `no handler for event %T`
error; otherwise run the fan-out loop, invoking each correctly-typed handler
synchronously in order.  The function only reads the map, so the post state is
the input state at every return. -/
def Publish (T : GoType) (v : GoValue) (st : Registry) : DispatchOut :=
  let eventType := typeOf v
  match mapLookup st.handlers eventType with
  | none => ⟨some (.noHandlers eventType), [], st⟩
  | some handler =>
    let r := dispatchLoop T v handler
    ⟨r.1, r.2, st⟩

/-- Model of `PublishAsync[T](event)`: identical lookup and type-check logic
to `Publish`, except each correctly-typed handler invocation is launched in a
new goroutine (`go eventHandler.OnEvent(event)`); the trace records the
launches in scheduling order.  The function only reads the map. -/
def PublishAsync (T : GoType) (v : GoValue) (st : Registry) : DispatchOut :=
  let eventType := typeOf v
  match mapLookup st.handlers eventType with
  | none => ⟨some (.noHandlers eventType), [], st⟩
  | some handler =>
    let r := dispatchLoop T v handler
    ⟨r.1, r.2, st⟩

/-- Sequential composition of a list of `Subscribe` calls (each call fixes its
own event type and handler); returns the ids in call order together with the
final state. -/
def runSubs (calls : List (GoType × GoHandler)) (st : Registry) : List Nat × Registry :=
  match calls with
  | [] => ([], st)
  | c :: cs =>
    let r := Subscribe c.1 c.2 st
    let r2 := runSubs cs r.2
    (r.1 :: r2.1, r2.2)

/-- The sequence of entries currently registered for event type `T` (the
slice under the key `reflect.TypeOf(*new(T))`, empty when the key is
absent). -/
def entriesFor (st : Registry) (T : GoType) : List handlerEntry :=
  (mapLookup st.handlers (typeOfZero T)).getD []

end eventbus

namespace eventbus

/-! Basic lemmas about the map model, the removal scan and the fan-out loop. -/

theorem mapLookup_mapInsert_self (m : HandlerMap) (k : Option GoType) (v : List handlerEntry) :
    mapLookup (mapInsert m k v) k = some v := by
  induction m with
  | nil => simp [mapInsert, mapLookup]
  | cons kv rest ih =>
    obtain ⟨k1, v1⟩ := kv
    by_cases h : k1 = k
    · simp [mapInsert, mapLookup, h]
    · simp [mapInsert, mapLookup, h, ih]

theorem mapLookup_mapInsert_ne (m : HandlerMap) (k k2 : Option GoType) (v : List handlerEntry)
    (h : k ≠ k2) : mapLookup (mapInsert m k v) k2 = mapLookup m k2 := by
  induction m with
  | nil => simp [mapInsert, mapLookup, h]
  | cons kv rest ih =>
    obtain ⟨k1, v1⟩ := kv
    by_cases h1 : k1 = k
    · subst h1
      simp [mapInsert, mapLookup, h]
    · simp [mapInsert, mapLookup, h1, ih]

theorem dispatchLoop_clean (T : GoType) (v : GoValue) (l : List handlerEntry)
    (h : ∀ e ∈ l, e.handler.handles = T) :
    dispatchLoop T v l = (none, l.map (fun e => (e.handler, v))) := by
  induction l with
  | nil => simp [dispatchLoop]
  | cons e rest ih =>
    have he : e.handler.handles = T := h e (by simp)
    have ihr := ih (fun x hx => h x (by simp [hx]))
    simp [dispatchLoop, he, ihr]

theorem dispatchLoop_mismatch (T : GoType) (v : GoValue) (pre : List handlerEntry)
    (bad : handlerEntry) (post : List handlerEntry)
    (hpre : ∀ e ∈ pre, e.handler.handles = T) (hbad : ¬ bad.handler.handles = T) :
    dispatchLoop T v (pre ++ bad :: post) =
      (some (.handlerTypeMismatch (typeOf v)), pre.map (fun e => (e.handler, v))) := by
  induction pre with
  | nil => simp [dispatchLoop, hbad]
  | cons e rest ih =>
    have he : e.handler.handles = T := hpre e (by simp)
    have ihr := ih (fun x hx => hpre x (by simp [hx]))
    simp [dispatchLoop, he, ihr]

theorem dispatchLoop_calls_mem (T : GoType) (v : GoValue) (l : List handlerEntry)
    (p : GoHandler × GoValue) (hp : p ∈ (dispatchLoop T v l).2) :
    p.1.handles = T ∧ p.2 = v := by
  induction l with
  | nil => simp [dispatchLoop] at hp
  | cons e rest ih =>
    by_cases he : e.handler.handles = T
    · simp only [dispatchLoop, he, if_pos] at hp
      rcases List.mem_cons.mp hp with h | h
      · subst h
        exact ⟨he, rfl⟩
      · exact ih h
    · simp [dispatchLoop, he] at hp

/-- C9: `Publish` and `PublishAsync` never modify the registry — the handler
table and the subscription-id counter are identical before and after the call,
whatever the result. -/
theorem publish_preserves_registry (T : GoType) (v : GoValue) (st : Registry) :
    (Publish T v st).post = st ∧ (PublishAsync T v st).post = st := by
  refine ⟨?_, ?_⟩ <;>
  · simp only [Publish, PublishAsync]
    cases mapLookup st.handlers (typeOf v) <;> rfl

/-- C1 counterexample: after subscribing a handler for a type and removing it
again, the type's key is present with an empty sequence, and `Publish` /
`PublishAsync` then return success (nil error) invoking nothing — not the
`NoHandlers` failure the claim requires for every zero-subscriber state. -/
theorem publish_empty_key_succeeds :
    entriesFor (Unsubscribe (.concrete 0) 1
        (Subscribe (.concrete 0) ⟨.concrete 0, 0⟩ initialRegistry).2).2 (.concrete 0) = [] ∧
    (Publish (.concrete 0) ⟨some (.concrete 0), 7⟩
        (Unsubscribe (.concrete 0) 1
          (Subscribe (.concrete 0) ⟨.concrete 0, 0⟩ initialRegistry).2).2).err = none ∧
    (Publish (.concrete 0) ⟨some (.concrete 0), 7⟩
        (Unsubscribe (.concrete 0) 1
          (Subscribe (.concrete 0) ⟨.concrete 0, 0⟩ initialRegistry).2).2).calls = [] ∧
    (PublishAsync (.concrete 0) ⟨some (.concrete 0), 7⟩
        (Unsubscribe (.concrete 0) 1
          (Subscribe (.concrete 0) ⟨.concrete 0, 0⟩ initialRegistry).2).2).err = none := by
  decide

/-- C1 (amended): dispatch distinguishes the two zero-subscriber states —
`Publish` and `PublishAsync` fail with `NoHandlers` exactly when the looked-up
key is absent from the table; when the key is present with an empty sequence
(all handlers removed), both return success and invoke nothing. -/
theorem publish_zero_subscribers (T : GoType) (v : GoValue) (st : Registry) :
    (mapLookup st.handlers (typeOf v) = none →
      (Publish T v st).err = some (.noHandlers (typeOf v)) ∧
      (PublishAsync T v st).err = some (.noHandlers (typeOf v))) ∧
    (mapLookup st.handlers (typeOf v) = some [] →
      (Publish T v st).err = none ∧ (Publish T v st).calls = [] ∧
      (PublishAsync T v st).err = none ∧ (PublishAsync T v st).calls = []) := by
  constructor <;> intro h <;> simp [Publish, PublishAsync, h, dispatchLoop]

theorem publish_zero_subscribers_witness :
    mapLookup initialRegistry.handlers (typeOf ⟨some (.concrete 0), 7⟩) = none ∧
    (Publish (.concrete 0) ⟨some (.concrete 0), 7⟩ initialRegistry).err =
      some (.noHandlers (some (.concrete 0))) ∧
    (PublishAsync (.concrete 0) ⟨some (.concrete 0), 7⟩ initialRegistry).err =
      some (.noHandlers (some (.concrete 0))) :=
  ⟨by decide, ((publish_zero_subscribers (.concrete 0) ⟨some (.concrete 0), 7⟩
      initialRegistry).1 (by decide)).1,
    ((publish_zero_subscribers (.concrete 0) ⟨some (.concrete 0), 7⟩
      initialRegistry).1 (by decide)).2⟩

/-- C2 counterexample: for an interface event type, the `Publish` key is the
value's dynamic type, not the declared type — with one handler subscribed for
the interface type, publishing a nil interface value reaches the handler while
publishing a non-nil value of the same declared type fails with `NoHandlers`:
two values of the same declared type map to different keys. -/
theorem publish_key_depends_on_dynamic_type :
    valueOfType (.iface 0) ⟨none, 0⟩ = true ∧
    valueOfType (.iface 0) ⟨some (.concrete 1), 0⟩ = true ∧
    typeOf (⟨some (.concrete 1), 0⟩ : GoValue) ≠ typeOf (⟨none, 0⟩ : GoValue) ∧
    (Publish (.iface 0) ⟨none, 0⟩
        (Subscribe (.iface 0) ⟨.iface 0, 0⟩ initialRegistry).2).err = none ∧
    (Publish (.iface 0) ⟨none, 0⟩
        (Subscribe (.iface 0) ⟨.iface 0, 0⟩ initialRegistry).2).calls =
      [(⟨.iface 0, 0⟩, ⟨none, 0⟩)] ∧
    (Publish (.iface 0) ⟨some (.concrete 1), 0⟩
        (Subscribe (.iface 0) ⟨.iface 0, 0⟩ initialRegistry).2).err =
      some (.noHandlers (some (.concrete 1))) := by
  decide

/-- C2 (amended): the subscribe/unsubscribe key depends only on the declared
type `T`; the publish key is the value's runtime type and coincides with the
subscribe key — independently of the value — exactly when `T` is a concrete
(non-interface) type; and every handler invocation performed by `Publish` or
`PublishAsync` passes the published value to a handler whose unique handled
type is exactly the publish-site type `T` (hence exactly the type it was
subscribed under, since `Subscribe[T]` only accepts a `Handler[T]`). -/
theorem publish_key_concrete_invocation_typing :
    (∀ (n : Nat) (v : GoValue), valueOfType (.concrete n) v = true →
      typeOf v = typeOfZero (.concrete n)) ∧
    (∀ (T : GoType) (v : GoValue) (st : Registry) (p : GoHandler × GoValue),
      p ∈ (Publish T v st).calls → p.1.handles = T ∧ p.2 = v) ∧
    (∀ (T : GoType) (v : GoValue) (st : Registry) (p : GoHandler × GoValue),
      p ∈ (PublishAsync T v st).calls → p.1.handles = T ∧ p.2 = v) := by
  refine ⟨?_, ?_, ?_⟩
  · intro n v h
    simp only [valueOfType, decide_eq_true_eq] at h
    simp [typeOf, typeOfZero, h]
  all_goals
  · intro T v st p hp
    simp only [Publish, PublishAsync] at hp
    cases hl : mapLookup st.handlers (typeOf v) with
    | none => rw [hl] at hp; simp at hp
    | some l =>
      rw [hl] at hp
      exact dispatchLoop_calls_mem T v l p hp

theorem publish_key_concrete_invocation_typing_witness :
    valueOfType (.concrete 0) ⟨some (.concrete 0), 3⟩ = true ∧
    typeOf (⟨some (.concrete 0), 3⟩ : GoValue) = typeOfZero (.concrete 0) ∧
    (((⟨.concrete 0, 1⟩ : GoHandler), (⟨some (.concrete 0), 3⟩ : GoValue)) ∈
      (Publish (.concrete 0) ⟨some (.concrete 0), 3⟩
        (Subscribe (.concrete 0) ⟨.concrete 0, 1⟩ initialRegistry).2).calls) ∧
    ((⟨.concrete 0, 1⟩ : GoHandler), (⟨some (.concrete 0), 3⟩ : GoValue)).1.handles =
      .concrete 0 :=
  ⟨by decide,
    publish_key_concrete_invocation_typing.1 0 ⟨some (.concrete 0), 3⟩ (by decide),
    by decide,
    (publish_key_concrete_invocation_typing.2.1 (.concrete 0) ⟨some (.concrete 0), 3⟩
      (Subscribe (.concrete 0) ⟨.concrete 0, 1⟩ initialRegistry).2
      (⟨.concrete 0, 1⟩, ⟨some (.concrete 0), 3⟩) (by decide)).1⟩

end eventbus

namespace eventbus

theorem runSubs_handlers_map (T : GoType) (hs : List GoHandler) (st : Registry) (hne : hs ≠ []) :
    ∃ l, mapLookup ((runSubs (hs.map (fun h => (T, h))) st).2).handlers (typeOfZero T) = some l ∧
      l.map (fun e => e.handler) = (entriesFor st T).map (fun e => e.handler) ++ hs := by
  induction hs generalizing st with
  | nil => exact absurd rfl hne
  | cons h rest ih =>
    cases rest with
    | nil =>
      refine ⟨entriesFor st T ++ [⟨generateHandlerId st.subscriberId, h⟩], ?_, ?_⟩
      · simp [runSubs, Subscribe, mapLookup_mapInsert_self, entriesFor]
      · simp
    | cons h2 rest2 =>
      obtain ⟨l, hl, hmap⟩ := ih (Subscribe T h st).2 (by simp)
      refine ⟨l, ?_, ?_⟩
      · simpa [runSubs] using hl
      · rw [hmap]
        have hstep : entriesFor (Subscribe T h st).2 T =
            entriesFor st T ++ [⟨generateHandlerId st.subscriberId, h⟩] := by
          simp [Subscribe, entriesFor, mapLookup_mapInsert_self]
        rw [hstep]
        simp

/-- C3 counterexample: for an interface event type with one correctly-typed
handler subscribed (the claim's scenario at n = 1), publishing a non-nil value
of that type invokes nothing and does not return success: the lookup keys on
the value's dynamic type, finds no entry for it and fails with `NoHandlers`. -/
theorem publish_iface_subscriber_not_invoked :
    valueOfType (.iface 0) ⟨some (.concrete 2), 0⟩ = true ∧
    (⟨.iface 0, 3⟩ : GoHandler).handles = .iface 0 ∧
    (Publish (.iface 0) ⟨some (.concrete 2), 0⟩
        (Subscribe (.iface 0) ⟨.iface 0, 3⟩ initialRegistry).2).err =
      some (.noHandlers (some (.concrete 2))) ∧
    (Publish (.iface 0) ⟨some (.concrete 2), 0⟩
        (Subscribe (.iface 0) ⟨.iface 0, 3⟩ initialRegistry).2).calls = [] := by
  decide

/-- C3 (amended): with handlers `h1..hn` (n ≥ 1) subscribed in that order for
a concrete event type and all correctly typed, `Publish` of a value of that
type invokes `h1`, then `h2`, ..., then `hn`, each exactly once and in
registration order (the trace of synchronous invocations is exactly the
handler list in order), and returns success.  The restriction to concrete
types is forced: for an interface type the publish lookup keys on the value's
dynamic type and a non-nil value of that type reaches no handler. -/
theorem publish_invokes_in_order (m : Nat) (v : GoValue) (hs : List GoHandler) (st : Registry)
    (hv : typeOf v = some (.concrete m)) (hne : hs ≠ [])
    (hall : ∀ h ∈ hs, h.handles = .concrete m)
    (hempty : entriesFor st (.concrete m) = []) :
    (Publish (.concrete m) v (runSubs (hs.map (fun h => ((.concrete m : GoType), h))) st).2).err
        = none ∧
    (Publish (.concrete m) v (runSubs (hs.map (fun h => ((.concrete m : GoType), h))) st).2).calls
        = hs.map (fun h => (h, v)) := by
  obtain ⟨l, hl, hmap⟩ := runSubs_handlers_map (.concrete m) hs st hne
  have hkey : typeOf v = typeOfZero (.concrete m) := by simpa [typeOfZero] using hv
  have hall2 : ∀ e ∈ l, e.handler.handles = .concrete m := by
    intro e he
    have hmem : e.handler ∈ l.map (fun e => e.handler) := List.mem_map_of_mem _ he
    rw [hmap, hempty] at hmem
    simp at hmem
    exact hall _ hmem
  have hclean := dispatchLoop_clean (.concrete m) v l hall2
  refine ⟨by simp [Publish, hkey, hl, hclean], ?_⟩
  have hcalls : (Publish (.concrete m) v
      (runSubs (hs.map (fun h => ((.concrete m : GoType), h))) st).2).calls =
      l.map (fun e => (e.handler, v)) := by
    simp [Publish, hkey, hl, hclean]
  rw [hcalls]
  have hcomp : l.map (fun e => (e.handler, v)) =
      (l.map (fun e => e.handler)).map (fun h => (h, v)) := by
    simp [List.map_map]
  rw [hcomp, hmap, hempty]
  simp

theorem publish_invokes_in_order_witness :
    ((⟨.concrete 0, 1⟩ : GoHandler) :: [⟨.concrete 0, 2⟩] ≠ []) ∧
    (Publish (.concrete 0) ⟨some (.concrete 0), 5⟩
      (runSubs ([⟨.concrete 0, 1⟩, ⟨.concrete 0, 2⟩].map
        (fun h => ((.concrete 0 : GoType), h))) initialRegistry).2).err = none ∧
    (Publish (.concrete 0) ⟨some (.concrete 0), 5⟩
      (runSubs ([⟨.concrete 0, 1⟩, ⟨.concrete 0, 2⟩].map
        (fun h => ((.concrete 0 : GoType), h))) initialRegistry).2).calls =
      [(⟨.concrete 0, 1⟩, ⟨some (.concrete 0), 5⟩),
       (⟨.concrete 0, 2⟩, ⟨some (.concrete 0), 5⟩)] := by
  have h := publish_invokes_in_order 0 ⟨some (.concrete 0), 5⟩
    [⟨.concrete 0, 1⟩, ⟨.concrete 0, 2⟩] initialRegistry (by decide) (by decide)
    (by decide) (by decide)
  exact ⟨by decide, h.1, h.2⟩

/-- C4 counterexample: for an interface event type `T`, the sequence stored
under `T`'s key (the nil key, shared by all interface types) can hold a
first incorrectly-typed entry at position 2 — here one handler subscribed for
`iface 0` and one for `iface 1` — yet publishing a non-nil value of type `T`
neither invokes the entry at position 1 nor returns `HandlerTypeMismatch`: it
keys on the value's dynamic type and fails with `NoHandlers`, invoking
nothing. -/
theorem publish_iface_mismatch_not_aborted :
    valueOfType (.iface 0) ⟨some (.concrete 5), 0⟩ = true ∧
    entriesFor (Subscribe (.iface 1) ⟨.iface 1, 9⟩
        (Subscribe (.iface 0) ⟨.iface 0, 1⟩ initialRegistry).2).2 (.iface 0) =
      [⟨1, ⟨.iface 0, 1⟩⟩, ⟨2, ⟨.iface 1, 9⟩⟩] ∧
    (Publish (.iface 0) ⟨some (.concrete 5), 0⟩
        (Subscribe (.iface 1) ⟨.iface 1, 9⟩
          (Subscribe (.iface 0) ⟨.iface 0, 1⟩ initialRegistry).2).2).err =
      some (.noHandlers (some (.concrete 5))) ∧
    (Publish (.iface 0) ⟨some (.concrete 5), 0⟩
        (Subscribe (.iface 1) ⟨.iface 1, 9⟩
          (Subscribe (.iface 0) ⟨.iface 0, 1⟩ initialRegistry).2).2).calls = [] := by
  decide

/-- C4 (amended): for a concrete event type — so that the publish lookup (by
the value's runtime type) reaches the type's own sequence — when the
looked-up handler sequence is `pre ++ bad :: post` with every entry of `pre`
correctly typed and `bad` the first incorrectly-typed entry, `Publish`
invokes exactly the entries of `pre` in order, invokes nothing at or after
the mismatching entry, and returns the `HandlerTypeMismatch` error naming the
event type. -/
theorem publish_mismatch_aborts (T : GoType) (v : GoValue) (st : Registry)
    (pre : List handlerEntry) (bad : handlerEntry) (post : List handlerEntry)
    (hv : typeOf v = some T)
    (hl : mapLookup st.handlers (some T) = some (pre ++ bad :: post))
    (hpre : ∀ e ∈ pre, e.handler.handles = T) (hbad : ¬ bad.handler.handles = T) :
    (Publish T v st).err = some (.handlerTypeMismatch (some T)) ∧
    (Publish T v st).calls = pre.map (fun e => (e.handler, v)) := by
  have hd := dispatchLoop_mismatch T v pre bad post hpre hbad
  constructor <;> simp [Publish, hv, hl, hd]

theorem publish_mismatch_aborts_witness :
    (¬ (⟨2, ⟨.concrete 1, 9⟩⟩ : handlerEntry).handler.handles = .concrete 0) ∧
    (Publish (.concrete 0) ⟨some (.concrete 0), 4⟩
      ⟨[(some (.concrete 0),
         [⟨1, ⟨.concrete 0, 1⟩⟩, ⟨2, ⟨.concrete 1, 9⟩⟩, ⟨3, ⟨.concrete 0, 3⟩⟩])], 3⟩).err =
      some (.handlerTypeMismatch (some (.concrete 0))) ∧
    (Publish (.concrete 0) ⟨some (.concrete 0), 4⟩
      ⟨[(some (.concrete 0),
         [⟨1, ⟨.concrete 0, 1⟩⟩, ⟨2, ⟨.concrete 1, 9⟩⟩, ⟨3, ⟨.concrete 0, 3⟩⟩])], 3⟩).calls =
      [(⟨.concrete 0, 1⟩, ⟨some (.concrete 0), 4⟩)] := by
  have h := publish_mismatch_aborts (.concrete 0) ⟨some (.concrete 0), 4⟩
    ⟨[(some (.concrete 0),
       [⟨1, ⟨.concrete 0, 1⟩⟩, ⟨2, ⟨.concrete 1, 9⟩⟩, ⟨3, ⟨.concrete 0, 3⟩⟩])], 3⟩
    [⟨1, ⟨.concrete 0, 1⟩⟩] ⟨2, ⟨.concrete 1, 9⟩⟩ [⟨3, ⟨.concrete 0, 3⟩⟩]
    (by decide) (by decide) (by decide) (by decide)
  exact ⟨by decide, h.1, h.2⟩

/-- C5: `PublishAsync` has exactly the same lookup and failure results as
`Publish` (the two functions agree on error, trace and post state); on a
sequence whose first incorrectly-typed entry is `bad`, it launches goroutines
for exactly the entries before `bad` in order and returns the
`HandlerTypeMismatch` error; with no mismatch it launches every entry exactly
once and returns success. -/
theorem publishAsync_same_semantics (T : GoType) (v : GoValue) (st : Registry)
    (pre : List handlerEntry) (bad : handlerEntry) (post l : List handlerEntry) :
    PublishAsync T v st = Publish T v st ∧
    (typeOf v = some T → mapLookup st.handlers (some T) = some (pre ++ bad :: post) →
      (∀ e ∈ pre, e.handler.handles = T) → ¬ bad.handler.handles = T →
      (PublishAsync T v st).err = some (.handlerTypeMismatch (some T)) ∧
      (PublishAsync T v st).calls = pre.map (fun e => (e.handler, v))) ∧
    (mapLookup st.handlers (typeOf v) = some l → (∀ e ∈ l, e.handler.handles = T) →
      (PublishAsync T v st).err = none ∧
      (PublishAsync T v st).calls = l.map (fun e => (e.handler, v))) := by
  refine ⟨rfl, ?_, ?_⟩
  · intro hv hl hpre hbad
    have hd := dispatchLoop_mismatch T v pre bad post hpre hbad
    constructor <;> simp [PublishAsync, hv, hl, hd]
  · intro hl hall
    have hd := dispatchLoop_clean T v l hall
    constructor <;> simp [PublishAsync, hl, hd]

theorem publishAsync_same_semantics_witness :
    (¬ (⟨2, ⟨.concrete 1, 9⟩⟩ : handlerEntry).handler.handles = .concrete 0) ∧
    (PublishAsync (.concrete 0) ⟨some (.concrete 0), 4⟩
      ⟨[(some (.concrete 0),
         [⟨1, ⟨.concrete 0, 1⟩⟩, ⟨2, ⟨.concrete 1, 9⟩⟩, ⟨3, ⟨.concrete 0, 3⟩⟩])], 3⟩).err =
      some (.handlerTypeMismatch (some (.concrete 0))) ∧
    (PublishAsync (.concrete 0) ⟨some (.concrete 0), 4⟩
      ⟨[(some (.concrete 0),
         [⟨1, ⟨.concrete 0, 1⟩⟩, ⟨2, ⟨.concrete 1, 9⟩⟩, ⟨3, ⟨.concrete 0, 3⟩⟩])], 3⟩).calls =
      [(⟨.concrete 0, 1⟩, ⟨some (.concrete 0), 4⟩)] := by
  have h := publishAsync_same_semantics (.concrete 0) ⟨some (.concrete 0), 4⟩
    ⟨[(some (.concrete 0),
       [⟨1, ⟨.concrete 0, 1⟩⟩, ⟨2, ⟨.concrete 1, 9⟩⟩, ⟨3, ⟨.concrete 0, 3⟩⟩])], 3⟩
    [⟨1, ⟨.concrete 0, 1⟩⟩] ⟨2, ⟨.concrete 1, 9⟩⟩ [⟨3, ⟨.concrete 0, 3⟩⟩] []
  have h2 := h.2.1 (by decide) (by decide) (by decide) (by decide)
  exact ⟨by decide, h2.1, h2.2⟩

end eventbus

namespace eventbus

theorem removeFirst_eq_none_iff (l : List handlerEntry) (i : Nat) :
    removeFirst l i = none ↔ ∀ e ∈ l, e.id ≠ i := by
  induction l with
  | nil => simp [removeFirst]
  | cons e rest ih =>
    by_cases he : e.id = i
    · simp [removeFirst, he]
    · simp [removeFirst, he, ih]

theorem removeFirst_append (pre : List handlerEntry) (e : handlerEntry)
    (post : List handlerEntry) (i : Nat)
    (hpre : ∀ x ∈ pre, x.id ≠ i) (he : e.id = i) :
    removeFirst (pre ++ e :: post) i = some (pre ++ post) := by
  induction pre with
  | nil => simp [removeFirst, he]
  | cons x rest ih =>
    have hx : ¬ x.id = i := hpre x (by simp)
    have ihr := ih (fun y hy => hpre y (by simp [hy]))
    simp [removeFirst, hx, ihr]

theorem mapLookup_of_entriesFor_ne_nil (st : Registry) (T : GoType)
    (h : entriesFor st T ≠ []) :
    mapLookup st.handlers (typeOfZero T) = some (entriesFor st T) := by
  unfold entriesFor at *
  cases hl : mapLookup st.handlers (typeOfZero T) with
  | none => rw [hl] at h; simp at h
  | some l => simp

theorem Unsubscribe_found (T : GoType) (i : Nat) (st : Registry) (l l2 : List handlerEntry)
    (hl : mapLookup st.handlers (typeOfZero T) = some l)
    (hr : removeFirst l i = some l2) :
    Unsubscribe T i st = (true, ⟨mapInsert st.handlers (typeOfZero T) l2, st.subscriberId⟩) := by
  simp only [Unsubscribe, hl, hr]

theorem Unsubscribe_not_found (T : GoType) (i : Nat) (st : Registry)
    (h : ∀ e ∈ entriesFor st T, e.id ≠ i) :
    Unsubscribe T i st = (false, st) := by
  simp only [Unsubscribe]
  split
  · rfl
  next l hl =>
    have hr : removeFirst l i = none := by
      refine (removeFirst_eq_none_iff l i).mpr ?_
      intro e he
      apply h
      unfold entriesFor
      rw [hl]
      exact he
    simp only [hr]

theorem Subscribe_entriesFor (T : GoType) (h : GoHandler) (st : Registry) :
    entriesFor (Subscribe T h st).2 T =
      entriesFor st T ++ [⟨generateHandlerId st.subscriberId, h⟩] := by
  simp [Subscribe, entriesFor, mapLookup_mapInsert_self]

/-- C7 counterexample: once the 64-bit id counter has wrapped, `Subscribe`
can return an id already carried by an older entry of the same type's
sequence.  In the post-wrap state below (counter back at 0 while the entry
that received id 1 is still registered), the new subscription also gets id 1,
the first `Unsubscribe` with id 1 returns true (removing the older entry) —
and a second call with the same id returns true again, not false. -/
theorem unsubscribe_post_wrap_double_true :
    (Subscribe (.concrete 0) ⟨.concrete 0, 2⟩
        ⟨[(some (.concrete 0), [⟨1, ⟨.concrete 0, 1⟩⟩])], 0⟩).1 = 1 ∧
    (Unsubscribe (.concrete 0) 1
        (Subscribe (.concrete 0) ⟨.concrete 0, 2⟩
          ⟨[(some (.concrete 0), [⟨1, ⟨.concrete 0, 1⟩⟩])], 0⟩).2).1 = true ∧
    (Unsubscribe (.concrete 0) 1
        (Unsubscribe (.concrete 0) 1
          (Subscribe (.concrete 0) ⟨.concrete 0, 2⟩
            ⟨[(some (.concrete 0), [⟨1, ⟨.concrete 0, 1⟩⟩])], 0⟩).2).2).1 = true := by
  decide

/-- C7 (amended): `Unsubscribe` for type `T` and id `i` returns true exactly
when `T`'s sequence contains an entry with id `i`; when the first such entry
is found it is removed and the relative order of all remaining entries is
preserved; and after a `Subscribe` for `T` returns id `i`, provided `i` is
not already carried by another entry of `T`'s sequence (guaranteed while
fewer than `2 ^ 64` ids have been issued, but violable after the counter
wraps), the first `Unsubscribe` with `i` returns true and a second call with
the same id returns false. -/
theorem unsubscribe_correct (T : GoType) (i : Nat) (st : Registry) :
    ((Unsubscribe T i st).1 = true ↔ ∃ e ∈ entriesFor st T, e.id = i) ∧
    (∀ (pre post : List handlerEntry) (e : handlerEntry),
      entriesFor st T = pre ++ e :: post → e.id = i → (∀ x ∈ pre, x.id ≠ i) →
      (Unsubscribe T i st).1 = true ∧
      entriesFor (Unsubscribe T i st).2 T = pre ++ post) ∧
    (∀ h : GoHandler,
      (∀ e ∈ entriesFor st T, e.id ≠ (Subscribe T h st).1) →
      (Unsubscribe T (Subscribe T h st).1 (Subscribe T h st).2).1 = true ∧
      (Unsubscribe T (Subscribe T h st).1
        (Unsubscribe T (Subscribe T h st).1 (Subscribe T h st).2).2).1 = false) := by
  refine ⟨?_, ?_, ?_⟩
  · constructor
    · intro htrue
      by_contra hc
      push_neg at hc
      rw [Unsubscribe_not_found T i st hc] at htrue
      exact Bool.noConfusion htrue
    · rintro ⟨e, he, heid⟩
      have hne : entriesFor st T ≠ [] := by
        intro hnil
        rw [hnil] at he
        exact List.not_mem_nil e he
      have hl := mapLookup_of_entriesFor_ne_nil st T hne
      cases hr : removeFirst (entriesFor st T) i with
      | none =>
        have := (removeFirst_eq_none_iff (entriesFor st T) i).mp hr e he
        exact absurd heid this
      | some l2 => rw [Unsubscribe_found T i st (entriesFor st T) l2 hl hr]
  · intro pre post e hE he hpre
    have hne : entriesFor st T ≠ [] := by simp [hE]
    have hl := mapLookup_of_entriesFor_ne_nil st T hne
    rw [hE] at hl
    have hr := removeFirst_append pre e post i hpre he
    have hu := Unsubscribe_found T i st (pre ++ e :: post) (pre ++ post) hl hr
    rw [hu]
    exact ⟨rfl, by simp [entriesFor, mapLookup_mapInsert_self]⟩
  · intro h hfresh
    have hstep := Subscribe_entriesFor T h st
    have hid : (Subscribe T h st).1 = generateHandlerId st.subscriberId := rfl
    have hne : entriesFor (Subscribe T h st).2 T ≠ [] := by simp [hstep]
    have hl := mapLookup_of_entriesFor_ne_nil _ T hne
    rw [hstep] at hl
    have hr := removeFirst_append (entriesFor st T)
      ⟨generateHandlerId st.subscriberId, h⟩ [] (generateHandlerId st.subscriberId)
      (fun x hx => by simpa [hid] using hfresh x hx) rfl
    have hu := Unsubscribe_found T (generateHandlerId st.subscriberId)
      (Subscribe T h st).2 _ _ hl hr
    have hu1 : (Unsubscribe T (generateHandlerId st.subscriberId) (Subscribe T h st).2).1 =
        true := by rw [hu]
    have hu2 : (Unsubscribe T (generateHandlerId st.subscriberId) (Subscribe T h st).2).2 =
        ⟨mapInsert (Subscribe T h st).2.handlers (typeOfZero T) (entriesFor st T ++ []),
          (Subscribe T h st).2.subscriberId⟩ := by rw [hu]
    refine ⟨by rw [hid]; exact hu1, ?_⟩
    rw [hid, hu2]
    have h2 : ∀ e ∈ entriesFor
        (⟨mapInsert (Subscribe T h st).2.handlers (typeOfZero T) (entriesFor st T ++ []),
          (Subscribe T h st).2.subscriberId⟩ : Registry) T,
        e.id ≠ generateHandlerId st.subscriberId := by
      intro e he
      have hmem : e ∈ entriesFor st T := by
        simpa [entriesFor, mapLookup_mapInsert_self] using he
      simpa [hid] using hfresh e hmem
    rw [Unsubscribe_not_found T (generateHandlerId st.subscriberId) _ h2]

theorem unsubscribe_correct_witness :
    (∀ e ∈ entriesFor initialRegistry (.concrete 0), e.id ≠
      (Subscribe (.concrete 0) ⟨.concrete 0, 0⟩ initialRegistry).1) ∧
    (Unsubscribe (.concrete 0) (Subscribe (.concrete 0) ⟨.concrete 0, 0⟩ initialRegistry).1
      (Subscribe (.concrete 0) ⟨.concrete 0, 0⟩ initialRegistry).2).1 = true ∧
    (Unsubscribe (.concrete 0) (Subscribe (.concrete 0) ⟨.concrete 0, 0⟩ initialRegistry).1
      (Unsubscribe (.concrete 0) (Subscribe (.concrete 0) ⟨.concrete 0, 0⟩ initialRegistry).1
        (Subscribe (.concrete 0) ⟨.concrete 0, 0⟩ initialRegistry).2).2).1 = false := by
  have h := (unsubscribe_correct (.concrete 0)
      (Subscribe (.concrete 0) ⟨.concrete 0, 0⟩ initialRegistry).1 initialRegistry).2.2
    ⟨.concrete 0, 0⟩ (by decide)
  exact ⟨by decide, h.1, h.2⟩

/-- C8 counterexample: all interface types share the nil lookup key, so an id
never issued for `iface 0` — it was issued by a `Subscribe` for `iface 1` —
is nevertheless found by `Unsubscribe` for `iface 0`, which returns true and
mutates the registry instead of returning false and leaving it unchanged. -/
theorem unsubscribe_other_iface_id_removed :
    (Subscribe (.iface 1) ⟨.iface 1, 4⟩ initialRegistry).1 = 1 ∧
    (Unsubscribe (.iface 0) 1
        (Subscribe (.iface 1) ⟨.iface 1, 4⟩ initialRegistry).2).1 = true ∧
    (Unsubscribe (.iface 0) 1
        (Subscribe (.iface 1) ⟨.iface 1, 4⟩ initialRegistry).2).2 ≠
      (Subscribe (.iface 1) ⟨.iface 1, 4⟩ initialRegistry).2 := by
  decide

/-- C8 (amended): `Unsubscribe` for type `T` with an id that matches no entry
of the sequence stored under `T`'s key returns false and leaves the entire
registry state — every type's handler sequence and the id counter — exactly
as it was.  For a concrete `T` an id never issued for `T` always satisfies
this precondition; interface types all share the nil key, so an id issued for
a different interface type can be found and removed through `T`. -/
theorem unsubscribe_unknown_id_noop (T : GoType) (i : Nat) (st : Registry)
    (h : ∀ e ∈ entriesFor st T, e.id ≠ i) :
    (Unsubscribe T i st).1 = false ∧ (Unsubscribe T i st).2 = st := by
  rw [Unsubscribe_not_found T i st h]
  exact ⟨rfl, rfl⟩

theorem unsubscribe_unknown_id_noop_witness :
    (∀ e ∈ entriesFor (Subscribe (.concrete 0) ⟨.concrete 0, 1⟩ initialRegistry).2
      (.concrete 0), e.id ≠ 5) ∧
    (Unsubscribe (.concrete 0) 5
      (Subscribe (.concrete 0) ⟨.concrete 0, 1⟩ initialRegistry).2).1 = false ∧
    (Unsubscribe (.concrete 0) 5
      (Subscribe (.concrete 0) ⟨.concrete 0, 1⟩ initialRegistry).2).2 =
      (Subscribe (.concrete 0) ⟨.concrete 0, 1⟩ initialRegistry).2 := by
  have h := unsubscribe_unknown_id_noop (.concrete 0) 5
    (Subscribe (.concrete 0) ⟨.concrete 0, 1⟩ initialRegistry).2 (by decide)
  exact ⟨by decide, h.1, h.2⟩

end eventbus

namespace eventbus

theorem runSubs_ids (cs : List (GoType × GoHandler)) (st : Registry) :
    (runSubs cs st).1 =
      (List.range cs.length).map (fun k => (st.subscriberId + k + 1) % 2 ^ 64) := by
  induction cs generalizing st with
  | nil => simp [runSubs]
  | cons c rest ih =>
    simp only [runSubs]
    rw [ih (Subscribe c.1 c.2 st).2]
    simp only [List.length_cons, List.range_succ_eq_map, List.map_cons, List.map_map]
    congr 1
    congr 1
    funext k
    show ((st.subscriberId + 1) % 2 ^ 64 + k + 1) % 2 ^ 64 =
      (st.subscriberId + (k + 1) + 1) % 2 ^ 64
    rw [Nat.add_assoc, Nat.mod_add_mod]
    congr 1
    omega

theorem consecutive_mod_ids_nodup (s n : Nat) (hn : n ≤ 2 ^ 64) :
    ((List.range n).map (fun k => (s + k + 1) % 2 ^ 64)).Nodup := by
  refine List.Nodup.map_on ?_ (List.nodup_range n)
  intro a ha b hb hab
  simp only [List.mem_range] at ha hb
  have h2 : (s + 1 + a) % 2 ^ 64 = (s + 1 + b) % 2 ^ 64 := by
    have e1 : s + 1 + a = s + a + 1 := by omega
    have e2 : s + 1 + b = s + b + 1 := by omega
    rw [e1, e2, hab]
  have h1 : a % 2 ^ 64 = b % 2 ^ 64 := Nat.ModEq.add_left_cancel' (s + 1) h2
  rw [Nat.mod_eq_of_lt (lt_of_lt_of_le ha hn), Nat.mod_eq_of_lt (lt_of_lt_of_le hb hn)] at h1
  exact h1

theorem range_mod_ids_not_nodup :
    ¬ ((List.range (2 ^ 64 + 1)).map
        (fun k => (initialRegistry.subscriberId + k + 1) % 2 ^ 64)).Nodup := by
  intro hnd
  have hinj := List.nodup_iff_injective_get.mp hnd
  have hlt0 : 0 < ((List.range (2 ^ 64 + 1)).map
      (fun k => (initialRegistry.subscriberId + k + 1) % 2 ^ 64)).length := by
    simp
  have hltW : 2 ^ 64 < ((List.range (2 ^ 64 + 1)).map
      (fun k => (initialRegistry.subscriberId + k + 1) % 2 ^ 64)).length := by
    simp
  have heq : ((List.range (2 ^ 64 + 1)).map
        (fun k => (initialRegistry.subscriberId + k + 1) % 2 ^ 64)).get ⟨0, hlt0⟩ =
      ((List.range (2 ^ 64 + 1)).map
        (fun k => (initialRegistry.subscriberId + k + 1) % 2 ^ 64)).get ⟨2 ^ 64, hltW⟩ := by
    simp only [List.get_eq_getElem, List.getElem_map, List.getElem_range]
    show (0 + 0 + 1) % 2 ^ 64 = (0 + 2 ^ 64 + 1) % 2 ^ 64
    norm_num [Nat.add_mod_left]
  have hfin : (⟨0, hlt0⟩ : Fin _) = (⟨2 ^ 64, hltW⟩ : Fin _) :=
    @hinj ⟨0, hlt0⟩ ⟨2 ^ 64, hltW⟩ heq
  have hval : (0 : Nat) = 2 ^ 64 := congrArg Fin.val hfin
  norm_num at hval

/-- C6 counterexample: the subscription-id counter is a wrapping 64-bit
integer, so over a sequence of `2 ^ 64 + 1` subscribe calls (mixing event
types) started at process start the returned ids are not strictly increasing
and the id 1 is returned twice — the claim fails for long enough call
sequences. -/
theorem subscribe_ids_wrap :
    ¬ (List.Pairwise (· < ·)
        (runSubs (((.iface 0 : GoType), (⟨.iface 0, 5⟩ : GoHandler)) ::
          List.replicate (2 ^ 64) ((.concrete 0 : GoType), (⟨.concrete 0, 0⟩ : GoHandler)))
          initialRegistry).1 ∧
      (runSubs (((.iface 0 : GoType), (⟨.iface 0, 5⟩ : GoHandler)) ::
        List.replicate (2 ^ 64) ((.concrete 0 : GoType), (⟨.concrete 0, 0⟩ : GoHandler)))
        initialRegistry).1.Nodup) := by
  intro hcl
  have hnd := hcl.2
  rw [runSubs_ids, List.length_cons, List.length_replicate] at hnd
  exact range_mod_ids_not_nodup hnd

/-- C6 (amended): for every sequence of subscribe calls, over any mix of
event types, in which fewer than `2 ^ 64` ids are generated in total (so the
64-bit counter does not wrap), the returned subscription ids are strictly
increasing in call order and no id is returned twice. -/
theorem subscribe_ids_strictly_increasing (cs : List (GoType × GoHandler)) (st : Registry)
    (hb : st.subscriberId + cs.length < 2 ^ 64) :
    List.Pairwise (· < ·) (runSubs cs st).1 ∧ (runSubs cs st).1.Nodup := by
  have hpw : List.Pairwise (· < ·) (runSubs cs st).1 := by
    rw [runSubs_ids]
    refine List.pairwise_map.mpr ?_
    refine List.Pairwise.imp_of_mem ?_ (List.pairwise_lt_range cs.length)
    intro a b ha hb2 hab
    simp only [List.mem_range] at ha hb2
    have hae : (st.subscriberId + a + 1) % 2 ^ 64 = st.subscriberId + a + 1 :=
      Nat.mod_eq_of_lt (by omega)
    have hbe : (st.subscriberId + b + 1) % 2 ^ 64 = st.subscriberId + b + 1 :=
      Nat.mod_eq_of_lt (by omega)
    rw [hae, hbe]
    omega
  exact ⟨hpw, hpw.imp Nat.ne_of_lt⟩

theorem subscribe_ids_strictly_increasing_witness :
    initialRegistry.subscriberId + 2 < 2 ^ 64 ∧
    List.Pairwise (· < ·)
      (runSubs [((.concrete 0 : GoType), (⟨.concrete 0, 0⟩ : GoHandler)),
        ((.concrete 1 : GoType), (⟨.concrete 1, 1⟩ : GoHandler))] initialRegistry).1 ∧
    (runSubs [((.concrete 0 : GoType), (⟨.concrete 0, 0⟩ : GoHandler)),
      ((.concrete 1 : GoType), (⟨.concrete 1, 1⟩ : GoHandler))] initialRegistry).1.Nodup := by
  have h := subscribe_ids_strictly_increasing
    [((.concrete 0 : GoType), (⟨.concrete 0, 0⟩ : GoHandler)),
      ((.concrete 1 : GoType), (⟨.concrete 1, 1⟩ : GoHandler))] initialRegistry (by decide)
  exact ⟨by decide, h.1, h.2⟩

end eventbus

namespace eventbus

theorem runSubs_replicate_lookup (T : GoType) (h : GoHandler) (n : Nat) (st : Registry)
    (hn : 0 < n) :
    mapLookup ((runSubs (List.replicate n (T, h)) st).2).handlers (typeOfZero T) =
      some (entriesFor st T ++
        ((runSubs (List.replicate n (T, h)) st).1).map (fun i => (⟨i, h⟩ : handlerEntry))) := by
  induction n generalizing st with
  | zero => exact absurd hn (by simp)
  | succ n ih =>
    rcases Nat.eq_zero_or_pos n with h0 | hpos
    · subst h0
      simp [runSubs, Subscribe, mapLookup_mapInsert_self, entriesFor]
    · have ihs := ih (Subscribe T h st).2 hpos
      simp only [List.replicate_succ, runSubs]
      rw [ihs, Subscribe_entriesFor]
      simp
      rfl

/-- C10 (amended): subscribing the same handler `n` times (1 ≤ n ≤ 2^64) for
the same concrete event type yields `n` entries whose ids are pairwise
distinct (distinctness requires `n ≤ 2 ^ 64` because the id counter is a
wrapping 64-bit integer); a subsequent `Publish` of a value of that type
succeeds and invokes that handler exactly `n` times; and each entry can be
removed by its own id.  The restriction to concrete types is forced: for an
interface type the publish lookup keys on the value's dynamic type, so a
non-nil value of that type reaches no handler. -/
theorem subscribe_no_dedup (m : Nat) (h : GoHandler) (v : GoValue) (n : Nat) (st : Registry)
    (hh : h.handles = .concrete m) (hv : typeOf v = some (.concrete m))
    (hn : 0 < n) (hW : n ≤ 2 ^ 64)
    (hempty : entriesFor st (.concrete m) = []) :
    (runSubs (List.replicate n ((.concrete m : GoType), h)) st).1.length = n ∧
    (runSubs (List.replicate n ((.concrete m : GoType), h)) st).1.Nodup ∧
    mapLookup ((runSubs (List.replicate n ((.concrete m : GoType), h)) st).2).handlers
        (some (.concrete m)) =
      some (((runSubs (List.replicate n ((.concrete m : GoType), h)) st).1).map
        (fun i => (⟨i, h⟩ : handlerEntry))) ∧
    (Publish (.concrete m) v
        (runSubs (List.replicate n ((.concrete m : GoType), h)) st).2).err = none ∧
    (Publish (.concrete m) v
        (runSubs (List.replicate n ((.concrete m : GoType), h)) st).2).calls =
      List.replicate n (h, v) ∧
    (∀ i ∈ (runSubs (List.replicate n ((.concrete m : GoType), h)) st).1,
      (Unsubscribe (.concrete m) i
        (runSubs (List.replicate n ((.concrete m : GoType), h)) st).2).1 = true) := by
  have hids := runSubs_ids (List.replicate n ((.concrete m : GoType), h)) st
  have hlen : (runSubs (List.replicate n ((.concrete m : GoType), h)) st).1.length = n := by
    rw [hids, List.length_replicate]
    simp
  have hkeyz : typeOfZero (.concrete m) = some (.concrete m) := rfl
  have hlook0 := runSubs_replicate_lookup (.concrete m) h n st hn
  rw [hkeyz, hempty] at hlook0
  rw [List.nil_append] at hlook0
  have hall : ∀ e ∈ ((runSubs (List.replicate n ((.concrete m : GoType), h)) st).1).map
      (fun i => (⟨i, h⟩ : handlerEntry)), e.handler.handles = .concrete m := by
    intro e he
    obtain ⟨i, _, rfl⟩ := List.mem_map.mp he
    exact hh
  have hclean := dispatchLoop_clean (.concrete m) v _ hall
  refine ⟨hlen, ?_, hlook0, ?_, ?_, ?_⟩
  · rw [hids, List.length_replicate]
    exact consecutive_mod_ids_nodup st.subscriberId n hW
  · simp [Publish, hv, hlook0, hclean]
  · have hc : (Publish (.concrete m) v
        (runSubs (List.replicate n ((.concrete m : GoType), h)) st).2).calls =
        (((runSubs (List.replicate n ((.concrete m : GoType), h)) st).1).map
          (fun i => (⟨i, h⟩ : handlerEntry))).map (fun e => (e.handler, v)) := by
      simp [Publish, hv, hlook0, hclean]
    rw [hc, List.map_map]
    have hfun : ((fun (e : handlerEntry) => (e.handler, v)) ∘
        (fun i => (⟨i, h⟩ : handlerEntry))) = fun _ => (h, v) := rfl
    rw [hfun, List.map_const', hlen]
  · intro i hi
    have hmem : (⟨i, h⟩ : handlerEntry) ∈
        ((runSubs (List.replicate n ((.concrete m : GoType), h)) st).1).map
          (fun i => (⟨i, h⟩ : handlerEntry)) := List.mem_map_of_mem _ hi
    cases hr : removeFirst (((runSubs (List.replicate n ((.concrete m : GoType), h)) st).1).map
        (fun i => (⟨i, h⟩ : handlerEntry))) i with
    | none =>
      have hno := (removeFirst_eq_none_iff _ i).mp hr _ hmem
      exact absurd rfl hno
    | some l2 =>
      have hu := Unsubscribe_found (.concrete m) i
        (runSubs (List.replicate n ((.concrete m : GoType), h)) st).2 _ l2 hlook0 hr
      rw [hu]

theorem subscribe_no_dedup_witness :
    (0 < 2 ∧ 2 ≤ 2 ^ 64) ∧
    (runSubs (List.replicate 2 ((.concrete 0 : GoType), (⟨.concrete 0, 7⟩ : GoHandler)))
      initialRegistry).1.Nodup ∧
    (Publish (.concrete 0) ⟨some (.concrete 0), 1⟩
      (runSubs (List.replicate 2 ((.concrete 0 : GoType), (⟨.concrete 0, 7⟩ : GoHandler)))
        initialRegistry).2).calls =
      List.replicate 2 ((⟨.concrete 0, 7⟩ : GoHandler), (⟨some (.concrete 0), 1⟩ : GoValue)) := by
  have h := subscribe_no_dedup 0 ⟨.concrete 0, 7⟩ ⟨some (.concrete 0), 1⟩ 2 initialRegistry
    (by decide) (by decide) (by decide) (by norm_num) (by decide)
  exact ⟨⟨by decide, by norm_num⟩, h.2.1, h.2.2.2.2.1⟩

/-- C10 counterexample: two failures of the claim as stated.  The id counter
is a wrapping 64-bit integer, so subscribing the same handler `2 ^ 64 + 1`
times for the same type starting at process start does not yield
pairwise-distinct ids (id 1 is issued twice); and for an interface event
type, subscribing the same correctly-typed handler `n = 1` times and then
publishing a non-nil value of that type invokes the handler zero times, not
`n` times — the publish lookup keys on the value's dynamic type and fails
with `NoHandlers`. -/
theorem subscribe_same_handler_ids_repeat :
    (¬ ((runSubs (List.replicate (2 ^ 64 + 1)
        ((.concrete 0 : GoType), (⟨.concrete 0, 0⟩ : GoHandler))) initialRegistry).1).Nodup) ∧
    valueOfType (.iface 2) ⟨some (.concrete 3), 0⟩ = true ∧
    (Publish (.iface 2) ⟨some (.concrete 3), 0⟩
        (runSubs (List.replicate 1 ((.iface 2 : GoType), (⟨.iface 2, 6⟩ : GoHandler)))
          initialRegistry).2).calls = [] ∧
    (Publish (.iface 2) ⟨some (.concrete 3), 0⟩
        (runSubs (List.replicate 1 ((.iface 2 : GoType), (⟨.iface 2, 6⟩ : GoHandler)))
          initialRegistry).2).err = some (.noHandlers (some (.concrete 3))) := by
  refine ⟨?_, by decide, by decide, by decide⟩
  intro hnd
  rw [runSubs_ids, List.length_replicate] at hnd
  exact range_mod_ids_not_nodup hnd

end eventbus
